import Mathlib

/-!
Verification development for the pmx CLI orchestration core.

The definitions below are shallow embeddings of the TypeScript sources:
`src/core/fsTools.ts` (path policy and file tools),
`src/services/SafetyService.ts` (write validation used for config files),
`src/core/scribe/engine.ts` (the write_document branch of `runFeatureFlow`),
and `src/core/investigator/engine.ts` (the `runInvestigation` turn loop).

File systems are modelled as association lists from resolved paths to file
contents, directory trees as an inductive of named files and directories,
and the external reasoning service as a script of responses consumed one per
turn.  Node's POSIX `path` functions are reproduced segment by segment.

String primitives are implemented over the underlying character lists so
that every definition evaluates by kernel reduction on concrete inputs.
-/

/-- JS `s.startsWith(pre)`, computed on the character lists. -/
def strStartsWith (s pre : String) : Bool :=
  pre.data.isPrefixOf s.data

/-- JS `s.endsWith(suf)`, computed on the character lists. -/
def strEndsWith (s suf : String) : Bool :=
  suf.data.isSuffixOf s.data

/-- String equality as a Boolean, computed on the character lists. -/
def streq (a b : String) : Bool :=
  a.data == b.data

/-- JS `s.slice(0, n)` for strings (character-level model). -/
def strTake (s : String) (n : Nat) : String :=
  String.mk (s.data.take n)

/-- JS `s.slice(n)` for strings (character-level model). -/
def strDrop (s : String) (n : Nat) : String :=
  String.mk (s.data.drop n)

/-- Removal of the last `n` characters (`slice(0, -n)`). -/
def strDropRight (s : String) (n : Nat) : String :=
  String.mk (s.data.take (s.data.length - n))

/-- Worker for `splitOnChar`: accumulates the current chunk in reverse. -/
def splitOnCharAux (c : Char) : List Char → List Char → List String
  | [], cur => [String.mk cur.reverse]
  | x :: xs, cur =>
    if x = c then String.mk cur.reverse :: splitOnCharAux c xs []
    else splitOnCharAux c xs (x :: cur)

/-- JS `s.split(c)` for a one-character separator. -/
def splitOnChar (c : Char) (s : String) : List String :=
  splitOnCharAux c s.data []

/-- JS `parts.join(sep)`. -/
def joinWith (sep : String) : List String → String
  | [] => ""
  | [x] => x
  | x :: xs => x ++ sep ++ joinWith sep xs

/-- Model of Node's `path.posix` segment normalization (`normalizeString`):
drops empty and `.` segments and resolves `..` against the stack, keeping
leading `..` segments only when `allowAboveRoot` is true (relative paths). -/
def normSegsAux (allowAboveRoot : Bool) : List String → List String → List String
  | acc, [] => acc.reverse
  | acc, seg :: rest =>
    if seg = "" || seg = "." then normSegsAux allowAboveRoot acc rest
    else if seg = ".." then
      match acc with
      | [] => normSegsAux allowAboveRoot (if allowAboveRoot then [".."] else []) rest
      | top :: acc' =>
        if top = ".." then normSegsAux allowAboveRoot (".." :: acc) rest
        else normSegsAux allowAboveRoot acc' rest
    else normSegsAux allowAboveRoot (seg :: acc) rest

/-- Model of Node's `path.posix.normalize`: resolves `.` and `..` segments,
collapses repeated separators, preserves a trailing separator, and maps the
empty path to `.`. -/
def posixNormalize (p : String) : String :=
  if p = "" then "."
  else
    let isAbs := strStartsWith p "/"
    let trailing := strEndsWith p "/"
    let core := joinWith "/" (normSegsAux (!isAbs) [] (splitOnChar '/' p))
    if core = "" then
      if isAbs then "/" else if trailing then "./" else "."
    else
      (if isAbs then "/" ++ core else core) ++ (if trailing then "/" else "")

/-- Fuel-indexed worker for the leading-`..` stripper below. -/
def stripDotDotAux : Nat → String → String
  | 0, s => s
  | n + 1, s =>
    if s = ".." then ""
    else if strStartsWith s "../" || strStartsWith s "..\\" then stripDotDotAux n (strDrop s 3)
    else s

/-- Model of the regex replacement in `normalizePath`
(`.replace` of the anchored pattern matching repeated `..` chunks):
repeatedly removes a leading `..` followed by `/`, `\`, or the string end. -/
def stripLeadingDotDot (s : String) : String :=
  stripDotDotAux s.length s

/-- The cleaned relative path computed by `normalizePath`:
`path.normalize(relativePath)` followed by the leading-`..` strip. -/
def cleanPath (p : String) : String :=
  stripLeadingDotDot (posixNormalize p)

/-- Model of Node's `path.resolve(root, p)` for an absolute `root`: an
absolute `p` is normalized on its own, otherwise `p` is joined to `root`;
the trailing separator is removed as `resolve` does. -/
def resolvePath (root p : String) : String :=
  let joined := if strStartsWith p "/" then posixNormalize p else posixNormalize (root ++ "/" ++ p)
  if !streq joined "/" && strEndsWith joined "/" then strDropRight joined 1 else joined

/-- Non-empty segments of an absolute path, used by the `path.relative`
model. -/
def segsOfAbs (p : String) : List String :=
  (splitOnChar '/' (posixNormalize p)).filter (fun s => s ≠ "")

/-- Worker for `pathRelative`: drops the common leading segments and builds
the `..`-climb followed by the remaining target segments. -/
def relSegs : List String → List String → List String
  | f :: fs, t :: ts => if f = t then relSegs fs ts else (f :: fs).map (fun _ => "..") ++ (t :: ts)
  | [], ts => ts
  | fs, [] => fs.map (fun _ => "..")

/-- Model of Node's `path.relative(fromP, toP)` for absolute arguments. -/
def pathRelative (fromP toP : String) : String :=
  joinWith "/" (relSegs (segsOfAbs fromP) (segsOfAbs toP))

-- From here on: src/core/fsTools.ts

/-- `ALLOWED_WRITE_PREFIXES` from fsTools.ts. -/
def ALLOWED_WRITE_PREFIXES : List String := ["docs/", ".pmx/"]

/-- `BLOCKED_READ_PREFIXES` from fsTools.ts. -/
def BLOCKED_READ_PREFIXES : List String :=
  [".git/", "node_modules/", ".env", ".DS_Store", "dist/", "build/", ".next/", "coverage/"]

/-- The per-entry test used by both the write allowlist and the read
blocklist in fsTools.ts: a directory entry (ending in `/`) matches paths
under it and the bare directory itself, any other entry matches exactly. -/
def prefixMatches (pre p : String) : Bool :=
  if strEndsWith pre "/" then strStartsWith p pre || streq p (strDropRight pre 1)
  else streq p pre

/-- The write allowlist test applied to a cleaned path. -/
def writeAllowed (p : String) : Bool :=
  ALLOWED_WRITE_PREFIXES.any (fun pre => prefixMatches pre p)

/-- The read blocklist test applied to a cleaned path. -/
def readBlocked (p : String) : Bool :=
  BLOCKED_READ_PREFIXES.any (fun pre => prefixMatches pre p)

/-- The two file operations `normalizePath` distinguishes. -/
inductive FsOp where
  | read
  | write
deriving DecidableEq, Repr

/-- `DocPath` from fsTools.ts. -/
structure DocPath where
  projectRoot : String
  relativePath : String
  absolutePath : String
deriving DecidableEq, Repr

/-- `normalizePath` from fsTools.ts: cleans the path, then checks the write
allowlist or the read blocklist; a thrown `Error` is modelled as
`Except.error` carrying the message. -/
def normalizePath (projectRoot relativePath : String) (op : FsOp) : Except String DocPath :=
  let cleanRelative := cleanPath relativePath
  match op with
  | .write =>
    if writeAllowed cleanRelative then
      .ok ⟨projectRoot, cleanRelative, resolvePath projectRoot cleanRelative⟩
    else
      .error ("Access denied: Cannot write to '" ++ cleanRelative ++ "'. Allowed paths: docs/, .pmx/")
  | .read =>
    if readBlocked cleanRelative then
      .error ("Access denied: Cannot read from blocked path '" ++ cleanRelative ++ "'.")
    else
      .ok ⟨projectRoot, cleanRelative, resolvePath projectRoot cleanRelative⟩

/-- `PathDecision` from the specification: the observable outcome of the
path policy (`Allowed`, or `Blocked` meaning an access-denied error). -/
inductive PathDecision where
  | Allowed
  | Blocked
deriving DecidableEq, Repr

/-- `classify(path, operation)`: the path-policy decision realized by
`normalizePath` (success is `Allowed`, a thrown access error is `Blocked`). -/
def classify (projectRoot p : String) (op : FsOp) : PathDecision :=
  match normalizePath projectRoot p op with
  | .ok _ => .Allowed
  | .error _ => .Blocked

-- File-system model and the remaining fsTools operations

/-- A flat file system: resolved path to file content. Directories are
implicit (`mkdir -p` in `applyPendingWrite` always succeeds). -/
abbrev Fs : Type := List (String × String)

/-- Lookup of a file's content by resolved path. -/
def fsGet (fs : Fs) (k : String) : Option String :=
  match fs with
  | [] => none
  | (k', v) :: rest => if streq k' k then some v else fsGet rest k

/-- Overwrite or create a file at a resolved path. -/
def fsSet (fs : Fs) (k v : String) : Fs :=
  (k, v) :: fs

/-- `DocContent` from fsTools.ts. -/
structure DocContent where
  path : String
  content : String
  preview : String
deriving DecidableEq, Repr

/-- `PendingWrite` from fsTools.ts. -/
structure PendingWrite where
  path : String
  oldContent : Option String
  newContent : String
  reason : String
deriving DecidableEq, Repr

/-- `WriteStatus` from fsTools.ts. -/
inductive WriteStatus where
  | approved
  | rejected
deriving DecidableEq, Repr

/-- `readDocFile` from fsTools.ts: normalizes for read, reads the file,
truncates beyond 10000 characters with an explicit marker, and builds a
200-character preview.  A missing file is the `ENOENT` error wrapped in the
function's own message. -/
def readDocFile (projectRoot : String) (fs : Fs) (relativePath : String) : Except String DocContent :=
  match normalizePath projectRoot relativePath .read with
  | .error e => .error e
  | .ok docPath =>
    match fsGet fs docPath.absolutePath with
    | none => .error ("Failed to read file '" ++ docPath.relativePath ++ "': ENOENT: no such file or directory")
    | some content =>
      let safeContent :=
        if content.length > 10000 then
          strTake content 10000 ++ "\n\n[...File truncated. Total size: " ++ toString content.length ++ " chars. Use a more specific search or read in chunks...]"
        else content
      let preview0 := strTake safeContent 200
      let preview := if safeContent.length > 200 then preview0 ++ "..." else preview0
      .ok ⟨docPath.relativePath, safeContent, preview⟩

/-- `searchFiles` from fsTools.ts.  The external `grep -r` process is an
input: `none` models a failed process (the catch returns `[]`), `some out`
models the stdout lines.  Lines are filtered by the read blocklist on the
text before the first `:`, capped at 50 matches with a truncation note, and
otherwise clipped to 200 characters. -/
def searchFiles (grepOut : Option (List String)) : List String :=
  match grepOut with
  | none => []
  | some out =>
    let lines := out.filter (fun l => !streq l "")
    let allowedLines := lines.filter (fun line =>
      !(BLOCKED_READ_PREFIXES.any (fun pre =>
        strStartsWith ((splitOnChar ':' line).headD "") pre)))
    if allowedLines.length > 50 then
      allowedLines.take 50 ++ ["... and " ++ toString (allowedLines.length - 50) ++ " more matches (truncated for safety)"]
    else
      allowedLines.map (fun line => if line.length > 200 then strTake line 200 ++ "..." else line)

/-- `prepareDocWrite` from fsTools.ts: normalizes for write and records the
existing content (if any) together with the proposed content and reason. -/
def prepareDocWrite (projectRoot : String) (fs : Fs) (relativePath newContent reason : String) : Except String PendingWrite :=
  match normalizePath projectRoot relativePath .write with
  | .error e => .error e
  | .ok docPath => .ok ⟨docPath.relativePath, fsGet fs docPath.absolutePath, newContent, reason⟩

/-- `applyPendingWrite` from fsTools.ts: re-normalizes the pending path for
write and stores the new content at the resolved path. -/
def applyPendingWrite (projectRoot : String) (fs : Fs) (pending : PendingWrite) : Except String Fs :=
  match normalizePath projectRoot pending.path .write with
  | .error e => .error e
  | .ok docPath => .ok (fsSet fs docPath.absolutePath pending.newContent)

-- src/services/SafetyService.ts

/-- `SafetyService.validateWrite`: resolves the path against the root,
takes the root-relative form, and accepts it when it starts with `.pmx`,
`.pmx-global` or `docs`, or equals `PMX.md` or `README.md`; every other
path raises a safety violation (modelled as `Except.error`). -/
def validateWrite (rootDir filePath : String) : Except String Bool :=
  let resolved := resolvePath rootDir filePath
  let relativePath := pathRelative rootDir resolved
  let isPmxDir := strStartsWith relativePath ".pmx" || strStartsWith relativePath ".pmx-global"
  let isDocsDir := strStartsWith relativePath "docs"
  let isPmxFile := streq relativePath "PMX.md"
  let isReadme := streq relativePath "README.md"
  if isPmxDir || isDocsDir || isPmxFile || isReadme then
    .ok true
  else
    .error ("Safety Violation: Writing to '" ++ relativePath ++ "' is not allowed. Agent can only write to .pmx/, docs/, PMX.md, and README.md.")

-- src/core/scribe/engine.ts: the write_document branch of runFeatureFlow

/-- The write_document branch of `runFeatureFlow` in scribe/engine.ts, for
one proposed write: prepare the `PendingWrite`, consult the Confirmation
Gate (the human decision is the `status` input), then either apply it and
report success, or leave the file system untouched and report the
rejection (appending the critic warnings the way the source does).  Errors
thrown while preparing or applying are caught into the
`Error writing file:` result.  Returns the file system afterwards and the
tool-result text. -/
def writeDocumentStep (projectRoot : String) (fs : Fs) (filename content reason : String)
    (status : WriteStatus) (criticValid : Bool) (criticWarnings : List String) : Fs × String :=
  match prepareDocWrite projectRoot fs filename content reason with
  | .error e => (fs, "Error writing file: " ++ e)
  | .ok pending =>
    match status with
    | .approved =>
      match applyPendingWrite projectRoot fs pending with
      | .error e => (fs, "Error writing file: " ++ e)
      | .ok fs' => (fs', "Successfully wrote to " ++ filename)
    | .rejected =>
      let base := "User rejected the write."
      let msg :=
        if !criticValid || !criticWarnings.isEmpty then
          base ++ "\n\nCRITIC WARNINGS (The user likely rejected it because of these):\n" ++ joinWith "\n" (criticWarnings.map (fun w => "- " ++ w)) ++ "\n\nPlease fix these issues and try again."
        else base
      (fs, msg)

-- listDocFiles from fsTools.ts

/-- A directory tree entry as returned by `fs.readdir` with file types:
either a file or a directory with its children in readdir order. -/
inductive FsEntry where
  | file (name : String)
  | dir (name : String) (children : List FsEntry)

/-- Name of a directory entry. -/
def FsEntry.name : FsEntry → String
  | .file n => n
  | .dir n _ => n

/-- `path.relative(projectRoot, path.resolve(dir, name))` for a directory
whose own project-relative path is `pre`; the scanned target resolves under
the project root for every cleaned relative target. -/
def relJoin (pre name : String) : String :=
  if streq pre "" || streq pre "." then name else pre ++ "/" ++ name

/-- The `maxEntries` hard cap of `listDocFiles`. -/
def maxEntries : Nat := 200

/-- The truncation marker `listDocFiles` appends when the cap is reached. -/
def truncMarker : String := "... (truncated: max 200 files)"

/-- The `for (const file of files)` loop of `walk`: re-checks the
200-entry cap before each iteration (the source's `break`), skips blocked
entries, pushes files (and, non-recursively, directories with a trailing
slash), and recurses into subdirectories through `walkSub` when scanning
recursively.  The accumulator carries the pushed entries and the
project-relative paths of the directories read so far. -/
def walkChildrenF (recursive : Bool)
    (walkSub : String → List FsEntry → List String × List String → List String × List String)
    (relPre : String) : List FsEntry → List String × List String → List String × List String
  | [], acc => acc
  | f :: rest, acc =>
    if acc.1.length ≥ maxEntries then acc
    else
      let relPath := relJoin relPre f.name
      if readBlocked relPath then walkChildrenF recursive walkSub relPre rest acc
      else
        match f with
        | .file _ => walkChildrenF recursive walkSub relPre rest (acc.1 ++ [relPath], acc.2)
        | .dir _ ch =>
          if recursive then walkChildrenF recursive walkSub relPre rest (walkSub relPath ch acc)
          else walkChildrenF recursive walkSub relPre rest (acc.1 ++ [relPath ++ "/"], acc.2)

/-- The recursive `walk` of `listDocFiles`.  The fuel is `depth + 1 - d`
for current depth `d`, so fuel `0` is exactly the `currentDepth > depth`
early return; the cap check precedes the `readdir` (recorded in the
visited component). -/
def walkDir (recursive : Bool) : Nat → String → List FsEntry → List String × List String → List String × List String
  | 0, _, _, acc => acc
  | fuel + 1, relPre, children, acc =>
    if acc.1.length ≥ maxEntries then acc
    else walkChildrenF recursive (walkDir recursive fuel) relPre children (acc.1, acc.2 ++ [relPre])

/-- Locates the directory at the cleaned relative path inside the root
tree; `none` models the `readdir` failure that `walk` swallows. -/
def findDir : List FsEntry → List String → Option (List FsEntry)
  | children, [] => some children
  | children, seg :: rest =>
    match children.find? (fun e => streq e.name seg) with
    | some (.dir _ ch) => findDir ch rest
    | _ => none

/-- The path segments used to locate the scan target from the cleaned
relative path. -/
def targetSegs (cleanRelative : String) : List String :=
  (splitOnChar '/' cleanRelative).filter (fun s => s ≠ "" && s ≠ ".")

/-- `listDocFiles` from fsTools.ts: normalizes the target for read, refuses
an unbounded recursive scan of the project root, then walks the tree with
the 200-entry hard cap and appends the truncation marker when the cap was
reached.  Returns the produced lines together with the list of directories
that were actually read. -/
def listDocFiles (tree : List FsEntry) (relativePath : String) (recursive : Bool) (depth : Nat) : Except String (List String × List String) :=
  match normalizePath "/" relativePath .read with
  | .error e => .error e
  | .ok docPath =>
    if recursive && streq docPath.relativePath "." && depth > 1 then
      .error "Safety: Recursive scan of root directory is not allowed. Please scan specific folders (e.g. 'app', 'src') or use non-recursive mode."
    else
      match findDir tree (targetSegs docPath.relativePath) with
      | none => .ok ([], [])
      | some children =>
        let w := walkDir recursive depth docPath.relativePath children ([], [])
        .ok ((if w.1.length ≥ maxEntries then w.1 ++ [truncMarker] else w.1), w.2)

-- src/core/investigator/engine.ts

/-- An `EvidenceItem` as carried in the submit_report arguments. -/
structure EvidenceItem where
  path : String
  summary : String
  snippet : Option String := none
deriving DecidableEq, Repr

/-- The argument fields the engine reads off a parsed tool-call payload.
`path` and `pattern` are optional (the engine applies `||` defaults);
`summary` and `details` are required by the submit_report schema;
`evidence` is optional (the engine applies `|| []`). -/
structure ToolArgs where
  path : Option String := none
  pattern : Option String := none
  summary : String := ""
  details : String := ""
  evidence : Option (List EvidenceItem) := none
deriving DecidableEq, Repr

/-- The raw argument payload of a tool call as produced by the reasoning
service: either malformed text on which `JSON.parse` throws, or a
well-formed object. -/
inductive ArgPayload where
  | malformed (raw : String)
  | wellFormed (args : ToolArgs)
deriving DecidableEq, Repr

/-- `JSON.parse(toolCall.function.arguments)`: fails on malformed payloads
with a SyntaxError, modelled as `Except.error`. -/
def jsonParse : ArgPayload → Except String ToolArgs
  | .malformed raw => .error ("Unexpected token in JSON: " ++ raw)
  | .wellFormed args => .ok args

/-- A `ToolInvocationRequest`: identifier, tool name, raw arguments. -/
structure ToolCall where
  id : String
  name : String
  arguments : ArgPayload
deriving DecidableEq, Repr

/-- Conversation roles. -/
inductive Role where
  | system
  | user
  | assistant
  | tool
deriving DecidableEq, Repr

/-- One message of the conversation log (`LLMMessage`). -/
structure Message where
  role : Role
  content : String
  tool_calls : List ToolCall := []
  tool_call_id : Option String := none
  name : Option String := none
deriving DecidableEq, Repr

/-- One reasoning-service response: optional text (absent text is the
empty string after the engine's `|| ''`) and the requested tool calls
(the absent field is the empty list). -/
structure LLMResponse where
  content : String
  tool_calls : List ToolCall := []
deriving DecidableEq, Repr

/-- `InvestigationConfig` from investigator/types: the session budget. -/
structure InvestigationConfig where
  maxTurns : Nat
  maxTimeMs : Nat
deriving DecidableEq, Repr

/-- `InvestigationResult` from investigator/types. -/
structure InvestigationResult where
  objective : String
  summary : String
  details : String
  evidence : List EvidenceItem
deriving DecidableEq, Repr

/-- The environment the tool handlers run against: the project root, the
flat file contents, the directory tree, and the grep output for
search_files (`none` = failed process). -/
structure EngineEnv where
  root : String
  fs : Fs
  tree : List FsEntry
  grepOut : Option (List String) := none

/-- Rendering of `JSON.stringify(matches, null, 2)` for a string array;
the exact layout is not load-bearing for any claim. -/
def jsonStringify (l : List String) : String :=
  "[" ++ joinWith ", " (l.map (fun s => "\"" ++ s ++ "\"")) ++ "]"

/-- The tool dispatch of the engine's batch loop (the `try` block): runs
the named handler and yields the tool-result text plus the operational log
entries (tool name and target) recorded for the surrounding UI.  Unknown
names leave the result empty, exceptions become `Error: ...` text. -/
def dispatchTool (env : EngineEnv) (fnName : String) (args : ToolArgs) : String × List (String × String) :=
  if streq fnName "read_file" then
    match args.path with
    | none => ("Error: The \"path\" argument must be of type string", [("read_file", "")])
    | some p =>
      match readDocFile env.root env.fs p with
      | .ok doc => (doc.content, [("read_file", p)])
      | .error e => ("Error: " ++ e, [("read_file", p)])
  else if streq fnName "list_files" then
    let p := args.path.getD "docs/"
    match listDocFiles env.tree p false 2 with
    | .ok res => (joinWith "\n" res.1, [("list_files", p)])
    | .error e => ("Error: " ++ e, [("list_files", p)])
  else if streq fnName "search_files" then
    (jsonStringify (searchFiles env.grepOut), [("search_files", args.pattern.getD "")])
  else
    ("", [])

/-- Outcome of processing one batch of tool calls. -/
inductive BatchOut where
  | next (msgs : List Message) (log : List (String × String))
  | submitted (r : InvestigationResult) (msgs : List Message) (log : List (String × String))
  | crashed (e : String) (msgs : List Message) (log : List (String × String))
deriving DecidableEq, Repr

/-- The `for (const toolCall of toolCalls)` loop of `runInvestigation`:
parses each call's arguments (an uncaught parse failure aborts the whole
session), returns immediately with the structured report when the call is
submit_report, and otherwise dispatches the handler and appends exactly one
tool-result message carrying the call's identifier. -/
def runBatch (objective : String) (env : EngineEnv) : List ToolCall → List Message → List (String × String) → BatchOut
  | [], msgs, log => .next msgs log
  | tc :: rest, msgs, log =>
    match jsonParse tc.arguments with
    | .error e => .crashed e msgs log
    | .ok args =>
      if streq tc.name "submit_report" then
        .submitted ⟨objective, args.summary, args.details, args.evidence.getD []⟩ msgs log
      else
        let res := dispatchTool env tc.name args
        runBatch objective env rest
          (msgs ++ [{ role := .tool, content := res.1, tool_call_id := some tc.id, name := some tc.name }])
          (log ++ res.2)

/-- How a session ended. -/
inductive Outcome where
  | submitted (r : InvestigationResult)
  | exhausted
  | crashed (e : String)
deriving DecidableEq, Repr

/-- The complete observable state of a finished session: how it ended, the
number of reasoning-service round-trips performed, the message history, and
the operational log of dispatched tools. -/
structure RunResult where
  outcome : Outcome
  turns : Nat
  messages : List Message
  log : List (String × String)
deriving DecidableEq, Repr

/-- The budget-exhaustion fallback of `runInvestigation`. -/
def fallbackResult (objective : String) : InvestigationResult :=
  ⟨objective, "Investigation timed out or reached max turns.",
    "The agent did not submit a final report in time.", []⟩

/-- The value `runInvestigation` produces from an outcome: the submitted
report, the budget-exhaustion fallback, or the uncaught exception. -/
def finalResult (objective : String) : Outcome → Except String InvestigationResult
  | .submitted r => .ok r
  | .exhausted => .ok (fallbackResult objective)
  | .crashed e => .error e

/-- The out-of-turns nudge message pushed when a response has no tool calls
at the next-to-last turn. -/
def nudgeMessage : Message :=
  { role := .user, content := "You are out of turns. Please call submit_report now with what you have." }

/-- The `while (turns < config.maxTurns)` loop of `runInvestigation`.
`fuel` is `maxTurns - turns`, so running out of fuel is exactly the loop
guard failing.  `elapsed k` is `Date.now() - startTime` at the check made
after `k` completed turns; `script.getD k` is the reasoning service's
response to the `k`-th call (`llm.chat`). -/
def runLoop (objective : String) (cfg : InvestigationConfig) (env : EngineEnv)
    (script : List LLMResponse) (elapsed : Nat → Nat) :
    Nat → Nat → List Message → List (String × String) → RunResult
  | 0, turns, msgs, log => ⟨.exhausted, turns, msgs, log⟩
  | fuel + 1, turns, msgs, log =>
    if cfg.maxTimeMs < elapsed turns then ⟨.exhausted, turns, msgs, log⟩
    else
      let resp := script.getD turns ⟨"", []⟩
      let turns' := turns + 1
      let msgs1 := msgs ++ [{ role := .assistant, content := resp.content, tool_calls := resp.tool_calls }]
      if resp.tool_calls.isEmpty then
        let msgs2 := if turns' == cfg.maxTurns - 1 then msgs1 ++ [nudgeMessage] else msgs1
        runLoop objective cfg env script elapsed fuel turns' msgs2 log
      else
        match runBatch objective env resp.tool_calls msgs1 log with
        | .next msgs2 log2 => runLoop objective cfg env script elapsed fuel turns' msgs2 log2
        | .submitted r msgs2 log2 => ⟨.submitted r, turns', msgs2, log2⟩
        | .crashed e msgs2 log2 => ⟨.crashed e, turns', msgs2, log2⟩

/-- The system prompt seeded into the conversation (investigator engine). -/
def investigatorSystemPrompt (objective : String) : String :=
  "You are a Codebase Investigator for pmx. Your goal is to answer the user's objective by exploring the codebase. OBJECTIVE: \"" ++ objective ++ "\""

/-- `runInvestigation(objective, config)` from investigator/engine.ts, as a
function of the reasoning-service script, the tool environment, and the
clock. -/
def runInvestigation (objective : String) (cfg : InvestigationConfig) (env : EngineEnv)
    (script : List LLMResponse) (elapsed : Nat → Nat) : RunResult :=
  runLoop objective cfg env script elapsed cfg.maxTurns 0
    [{ role := .system, content := investigatorSystemPrompt objective }] []

/-- A tiny demonstration environment. -/
def demoEnv : EngineEnv :=
  { root := "/p"
  , fs := [("/p/README.md", "hello pm"), ("/p/docs/a.md", "alpha")]
  , tree := [.dir "docs" [.file "a.md"], .file "README.md"] }

/-- The tool-result message the batch loop appends for one request. -/
def toolResultMessage (env : EngineEnv) (tc : ToolCall) : Message :=
  match jsonParse tc.arguments with
  | .ok args =>
    { role := .tool, content := (dispatchTool env tc.name args).1,
      tool_call_id := some tc.id, name := some tc.name }
  | .error _ =>
    { role := .tool, content := "", tool_call_id := some tc.id, name := some tc.name }

/-- The operational log entries one request contributes. -/
def toolLogEntries (env : EngineEnv) (tc : ToolCall) : List (String × String) :=
  match jsonParse tc.arguments with
  | .ok args => (dispatchTool env tc.name args).2
  | .error _ => []

/-- The termination-relevant content of a batch outcome: which constructor
was taken and its report or error payload (messages and logs stripped). -/
def batchKind : BatchOut → Except String (Option InvestigationResult)
  | .next _ _ => .ok none
  | .submitted r _ _ => .ok (some r)
  | .crashed e _ _ => .error e

/-- The raw entry list a successful `listDocFiles` call produces before the
truncation marker is considered. -/
def walkEntriesOf (tree : List FsEntry) (p : String) (recursive : Bool) (depth : Nat) : List String :=
  match findDir tree (targetSegs (cleanPath p)) with
  | none => []
  | some children => (walkDir recursive depth (cleanPath p) children ([], [])).1

-- Helper lemmas

/-- A list is a Boolean prefix of itself followed by anything. -/
theorem isPrefixOf_append_self (l t : List Char) : l.isPrefixOf (l ++ t) = true := by
  induction l with
  | nil => simp [List.isPrefixOf]
  | cons x xs ih => simp [List.isPrefixOf, ih]

/-- `strStartsWith` holds for a string followed by any suffix. -/
theorem strStartsWith_append (a b : String) : strStartsWith (a ++ b) a = true := by
  have h := isPrefixOf_append_self a.data b.data
  simp only [strStartsWith, String.data_append]
  exact h

/-- `strStartsWith` is reflexive. -/
theorem strStartsWith_self (a : String) : strStartsWith a a = true := by
  have h := isPrefixOf_append_self a.data []
  rw [List.append_nil] at h
  simp only [strStartsWith]
  exact h

/-- `streq` is reflexive. -/
theorem streq_self (a : String) : streq a a = true := by
  simp [streq]

/-- `fsGet` finds the entry just written by `fsSet`. -/
theorem fsGet_fsSet (fs : Fs) (k v : String) : fsGet (fsSet fs k v) k = some v := by
  simp [fsGet, fsSet, streq_self]

/-- The write allowlist test, unfolded over the two fixed entries. -/
theorem writeAllowed_iff (c : String) :
    writeAllowed c =
      ((strStartsWith c "docs/" || streq c "docs") || (strStartsWith c ".pmx/" || streq c ".pmx")) := by
  simp only [writeAllowed, ALLOWED_WRITE_PREFIXES, List.any_cons, List.any_nil, prefixMatches]
  rw [show strEndsWith "docs/" "/" = true from by decide,
      show strEndsWith ".pmx/" "/" = true from by decide,
      show strDropRight "docs/" 1 = "docs" from by decide,
      show strDropRight ".pmx/" 1 = ".pmx" from by decide]
  simp

/-- `validateWrite` succeeds exactly on the `startsWith`/equality test it
performs on the root-relative path. -/
theorem validateWrite_isOk (root q : String) :
    (validateWrite root q).isOk =
      (let rel := pathRelative root (resolvePath root q)
       (strStartsWith rel ".pmx" || strStartsWith rel ".pmx-global") ||
         strStartsWith rel "docs" || streq rel "PMX.md" || streq rel "README.md") := by
  simp only [validateWrite]
  split <;> simp_all [Except.isOk, Except.toBool, Bool.or_eq_true]

-- C1

/-- C1: the claim that the normalization step rejects absolute paths that
escape the project root fails on the code: `normalizePath` only strips
leading `..` segments, so an absolute path passes through untouched — it is
classified `Allowed` for read, resolves outside the project root, and an
absolute spelling even reaches content under the blocked `.git/` prefix. -/
theorem read_policy_absolute_path_not_rejected :
    normalizePath "/project" "/etc/passwd" .read = .ok ⟨"/project", "/etc/passwd", "/etc/passwd"⟩
    ∧ classify "/project" "/etc/passwd" .read = .Allowed
    ∧ strStartsWith "/etc/passwd" "/project/" = false
    ∧ classify "/project" "/project/.git/config" .read = .Allowed := by
  refine ⟨rfl, rfl, by decide, rfl⟩

-- C2

/-- C2 counterexample: the claim counts the root-level file `PMX.md` among
the allowed write prefixes, but the path policy blocks writing to it. -/
theorem classify_write_pmx_md_blocked :
    classify "/r" "PMX.md" FsOp.write = PathDecision.Blocked := by
  decide

/-- C2 (amended): the path policy allows a write exactly when the cleaned
path is `docs` or `.pmx` or lies under `docs/` or `.pmx/`; every other
path, including the root-level files `PMX.md` and `README.md`, is Blocked.
The separate `SafetyService.validateWrite` (used for config writes) instead
accepts exactly the root-relative paths that start with the strings `.pmx`,
`.pmx-global` or `docs` or equal `PMX.md` or `README.md`. -/
theorem write_policy_characterization (root p q : String) :
    (classify root p .write = .Allowed ↔
      ((strStartsWith (cleanPath p) "docs/" || streq (cleanPath p) "docs") ||
        (strStartsWith (cleanPath p) ".pmx/" || streq (cleanPath p) ".pmx")) = true)
    ∧ ((validateWrite root q).isOk = true ↔
      (let rel := pathRelative root (resolvePath root q)
       (strStartsWith rel ".pmx" || strStartsWith rel ".pmx-global") ||
         strStartsWith rel "docs" || streq rel "PMX.md" || streq rel "README.md") = true) := by
  constructor
  · rw [← writeAllowed_iff]
    unfold classify normalizePath
    cases hw : writeAllowed (cleanPath p) <;> simp [hw]
  · rw [← validateWrite_isOk]

/-- Concrete instance of the amended C2 statement. -/
theorem write_policy_characterization_witness :
    classify "/r" "docs/a.md" FsOp.write = PathDecision.Allowed
    ∧ (validateWrite "/r" "docsfake.txt").isOk = true :=
  ⟨(write_policy_characterization "/r" "docs/a.md" "x").1.mpr (by decide),
   (write_policy_characterization "/r" "x" "docsfake.txt").2.mpr (by decide)⟩

-- C3

/-- C3: at the Confirmation Gate of the scribe flow, a rejected
`PendingWrite` leaves the file system exactly as it was and the tool-result
text states the rejection; an approved one leaves the target file holding
exactly the proposed `newContent`. -/
theorem confirmation_gate_write_semantics (root : String) (fs : Fs)
    (filename content reason : String) (cv : Bool) (cw : List String)
    (h1 : writeAllowed (cleanPath filename) = true)
    (h2 : writeAllowed (cleanPath (cleanPath filename)) = true) :
    ((writeDocumentStep root fs filename content reason .rejected cv cw).1 = fs
      ∧ strStartsWith (writeDocumentStep root fs filename content reason .rejected cv cw).2
          "User rejected the write." = true)
    ∧ fsGet (writeDocumentStep root fs filename content reason .approved cv cw).1
        (resolvePath root (cleanPath (cleanPath filename))) = some content := by
  unfold writeDocumentStep prepareDocWrite applyPendingWrite normalizePath
  simp only [h1, h2, if_true, ite_true]
  refine ⟨⟨trivial, ?_⟩, ?_⟩
  · by_cases hc : (!cv || !cw.isEmpty) = true
    · rw [if_pos hc]
      exact strStartsWith_append "User rejected the write." _
    · rw [if_neg hc]
      exact strStartsWith_self "User rejected the write."
  · exact fsGet_fsSet fs _ content

/-- Concrete instance of C3 at the spec's Scenario D input. -/
theorem confirmation_gate_write_semantics_witness :
    (((writeDocumentStep "/p" [] "docs/out.md" "hello" "Feature Flow: demo" .rejected true []).1 = ([] : Fs)
      ∧ strStartsWith (writeDocumentStep "/p" [] "docs/out.md" "hello" "Feature Flow: demo" .rejected true []).2
          "User rejected the write." = true)
    ∧ fsGet (writeDocumentStep "/p" [] "docs/out.md" "hello" "Feature Flow: demo" .approved true []).1
        (resolvePath "/p" (cleanPath (cleanPath "docs/out.md"))) = some "hello") :=
  confirmation_gate_write_semantics "/p" [] "docs/out.md" "hello" "Feature Flow: demo" true []
    (by decide) (by decide)

-- C4

/-- The final turn count never exceeds the remaining fuel. -/
theorem runLoop_turns_le (objective : String) (cfg : InvestigationConfig) (env : EngineEnv)
    (script : List LLMResponse) (elapsed : Nat → Nat) :
    ∀ (fuel turns : Nat) (msgs : List Message) (log : List (String × String)),
      (runLoop objective cfg env script elapsed fuel turns msgs log).turns ≤ turns + fuel := by
  intro fuel
  induction fuel with
  | zero =>
    intro turns msgs log
    show turns ≤ turns + 0
    omega
  | succ n ih =>
    intro turns msgs log
    simp only [runLoop]
    split
    · show turns ≤ turns + (n + 1)
      omega
    · split
      · exact le_trans (ih (turns + 1) _ _) (by omega)
      · split
        · exact le_trans (ih (turns + 1) _ _) (by omega)
        · show turns + 1 ≤ turns + (n + 1)
          omega
        · show turns + 1 ≤ turns + (n + 1)
          omega

/-- Every turn that was started had passed the wall-clock check. -/
theorem runLoop_time_check (objective : String) (cfg : InvestigationConfig) (env : EngineEnv)
    (script : List LLMResponse) (elapsed : Nat → Nat) :
    ∀ (fuel turns : Nat) (msgs : List Message) (log : List (String × String)) (k : Nat),
      turns ≤ k → k < (runLoop objective cfg env script elapsed fuel turns msgs log).turns →
      elapsed k ≤ cfg.maxTimeMs := by
  intro fuel
  induction fuel with
  | zero =>
    intro turns msgs log k h1 h2
    have h2' : k < turns := h2
    omega
  | succ n ih =>
    intro turns msgs log k h1 h2
    simp only [runLoop] at h2
    by_cases ht : cfg.maxTimeMs < elapsed turns
    · rw [if_pos ht] at h2
      have h2' : k < turns := h2
      omega
    · have hte : elapsed turns ≤ cfg.maxTimeMs := Nat.le_of_not_lt ht
      rw [if_neg ht] at h2
      rcases Nat.eq_or_lt_of_le h1 with h | h
      · rw [← h]
        exact hte
      · revert h2
        split
        · intro h2
          exact ih (turns + 1) _ _ k h h2
        · split
          · intro h2
            exact ih (turns + 1) _ _ k h h2
          · intro h2
            have h2' : k < turns + 1 := h2
            omega
          · intro h2
            have h2' : k < turns + 1 := h2
            omega

/-- C4: the session performs at most `maxTurns` reasoning-service
round-trips, every started turn had its elapsed time within `maxTimeMs` at
the preceding check, and a session that ends by budget exhaustion yields
the fallback `InvestigationResult` whose summary states that no conclusion
was reached. -/
theorem investigation_budget_enforced (objective : String) (cfg : InvestigationConfig)
    (env : EngineEnv) (script : List LLMResponse) (elapsed : Nat → Nat) :
    (runInvestigation objective cfg env script elapsed).turns ≤ cfg.maxTurns
    ∧ (∀ k, k < (runInvestigation objective cfg env script elapsed).turns →
        elapsed k ≤ cfg.maxTimeMs)
    ∧ ((runInvestigation objective cfg env script elapsed).outcome = .exhausted →
        finalResult objective (runInvestigation objective cfg env script elapsed).outcome
          = .ok (fallbackResult objective)) := by
  refine ⟨?_, ?_, ?_⟩
  · unfold runInvestigation
    have h := runLoop_turns_le objective cfg env script elapsed cfg.maxTurns 0
      [{ role := .system, content := investigatorSystemPrompt objective }] []
    omega
  · intro k hk
    unfold runInvestigation at hk
    exact runLoop_time_check objective cfg env script elapsed cfg.maxTurns 0 _ _ k (Nat.zero_le k) hk
  · intro h
    rw [h]
    rfl

/-- Concrete instance of C4: a two-turn budget with a script that never
submits ends after exactly two turns in the exhaustion fallback. -/
theorem investigation_budget_enforced_witness :
    (runInvestigation "q" ⟨2, 1000⟩ demoEnv [⟨"a", []⟩, ⟨"b", []⟩] (fun _ => 5)).turns ≤ 2
    ∧ (5 : Nat) ≤ 1000
    ∧ finalResult "q" (runInvestigation "q" ⟨2, 1000⟩ demoEnv [⟨"a", []⟩, ⟨"b", []⟩] (fun _ => 5)).outcome
        = .ok (fallbackResult "q") :=
  have h := investigation_budget_enforced "q" ⟨2, 1000⟩ demoEnv [⟨"a", []⟩, ⟨"b", []⟩] (fun _ => 5)
  ⟨h.1, h.2.1 0 (by decide), h.2.2 (by decide)⟩

-- C5

/-- C5 counterexample: a batch whose first call is submit_report followed
by a read_file produces the submitted result, yet the operational log is
empty and no tool-result message for the second call exists — the
remaining request was not executed, contrary to the claim. -/
theorem submit_report_batch_counterexample :
    (runInvestigation "q" ⟨3, 1000⟩ demoEnv
        [⟨"", [⟨"call_1", "submit_report", .wellFormed { summary := "s", details := "d" }⟩,
               ⟨"call_2", "read_file", .wellFormed { path := some "README.md" }⟩]⟩]
        (fun _ => 0)).outcome = .submitted ⟨"q", "s", "d", []⟩
    ∧ (runInvestigation "q" ⟨3, 1000⟩ demoEnv
        [⟨"", [⟨"call_1", "submit_report", .wellFormed { summary := "s", details := "d" }⟩,
               ⟨"call_2", "read_file", .wellFormed { path := some "README.md" }⟩]⟩]
        (fun _ => 0)).log = []
    ∧ ((runInvestigation "q" ⟨3, 1000⟩ demoEnv
        [⟨"", [⟨"call_1", "submit_report", .wellFormed { summary := "s", details := "d" }⟩,
               ⟨"call_2", "read_file", .wellFormed { path := some "README.md" }⟩]⟩]
        (fun _ => 0)).messages.filter (fun m => m.tool_call_id == some "call_2")) = [] :=
  ⟨rfl, rfl, rfl⟩

/-- C5 (amended): when a batch reaches a submit_report call, its parsed
arguments become the final `InvestigationResult` and processing stops
there: the requests after it are not executed — no handler runs and no
tool-result message or log entry is produced for them (message history and
log are returned exactly as they stood). -/
theorem submit_report_short_circuit (objective : String) (env : EngineEnv) (sc : ToolCall)
    (post : List ToolCall) (msgs : List Message) (log : List (String × String)) (a : ToolArgs)
    (h1 : streq sc.name "submit_report" = true) (h2 : jsonParse sc.arguments = .ok a) :
    runBatch objective env (sc :: post) msgs log =
      .submitted ⟨objective, a.summary, a.details, a.evidence.getD []⟩ msgs log := by
  simp only [runBatch, h2, h1, if_true, ite_true]

/-- Concrete instance of the amended C5 statement. -/
theorem submit_report_short_circuit_witness :
    runBatch "q" demoEnv
        [⟨"c1", "submit_report", .wellFormed { summary := "s", details := "d" }⟩,
         ⟨"c2", "read_file", .wellFormed { path := some "README.md" }⟩] [] [] =
      .submitted ⟨"q", "s", "d", []⟩ [] [] :=
  submit_report_short_circuit "q" demoEnv
    ⟨"c1", "submit_report", .wellFormed { summary := "s", details := "d" }⟩
    [⟨"c2", "read_file", .wellFormed { path := some "README.md" }⟩] [] []
    { summary := "s", details := "d" } (by decide) rfl

-- C6

/-- C6 counterexample: with a one-turn budget and a first response that
contains no tool calls, the engine returns the budget-exhaustion fallback,
not the response text, after exactly one turn. -/
theorem one_turn_plain_text_counterexample :
    (runInvestigation "why" ⟨1, 1000⟩ demoEnv [⟨"The answer is 42", []⟩] (fun _ => 0)).turns = 1
    ∧ (runInvestigation "why" ⟨1, 1000⟩ demoEnv [⟨"The answer is 42", []⟩] (fun _ => 0)).outcome
        = .exhausted
    ∧ finalResult "why"
        (runInvestigation "why" ⟨1, 1000⟩ demoEnv [⟨"The answer is 42", []⟩] (fun _ => 0)).outcome
        = .ok (fallbackResult "why")
    ∧ (fallbackResult "why").summary ≠ "The answer is 42" :=
  ⟨rfl, rfl, rfl, by decide⟩

/-- C6 (amended): in the core investigator engine, a session with a
one-turn budget whose only response carries no tool-invocation requests
ends after exactly one turn with the budget-exhaustion fallback result —
the plain text is recorded in the history but never becomes the final
answer. -/
theorem one_turn_no_tool_calls_exhausts (objective content : String) (env : EngineEnv)
    (T : Nat) (elapsed : Nat → Nat) (h : elapsed 0 ≤ T) :
    (runInvestigation objective ⟨1, T⟩ env [⟨content, []⟩] elapsed).outcome = .exhausted
    ∧ (runInvestigation objective ⟨1, T⟩ env [⟨content, []⟩] elapsed).turns = 1
    ∧ finalResult objective (runInvestigation objective ⟨1, T⟩ env [⟨content, []⟩] elapsed).outcome
        = .ok (fallbackResult objective) := by
  have ht : ¬ ((⟨1, T⟩ : InvestigationConfig).maxTimeMs < elapsed 0) := Nat.not_lt.mpr h
  unfold runInvestigation
  simp only [runLoop, if_neg ht]
  exact ⟨rfl, rfl, rfl⟩

/-- Concrete instance of the amended C6 statement. -/
theorem one_turn_no_tool_calls_exhausts_witness :
    (runInvestigation "q" ⟨1, 1000⟩ demoEnv [⟨"hi", []⟩] (fun _ => 7)).outcome = .exhausted
    ∧ (runInvestigation "q" ⟨1, 1000⟩ demoEnv [⟨"hi", []⟩] (fun _ => 7)).turns = 1
    ∧ finalResult "q" (runInvestigation "q" ⟨1, 1000⟩ demoEnv [⟨"hi", []⟩] (fun _ => 7)).outcome
        = .ok (fallbackResult "q") :=
  one_turn_no_tool_calls_exhausts "q" "hi" demoEnv 1000 (fun _ => 7) (by decide)

-- C7

/-- C7: a batch that completes normally (arguments parse, no submit_report)
appends exactly one tool-result message per request, in request order, each
carrying that request's identifier — so every request has received its
result before the next reasoning-service call is made. -/
theorem tool_results_one_per_request (objective : String) (env : EngineEnv) :
    ∀ (batch : List ToolCall) (msgs : List Message) (log : List (String × String)),
      (∀ tc ∈ batch, streq tc.name "submit_report" = false ∧ (jsonParse tc.arguments).isOk = true) →
      runBatch objective env batch msgs log =
        .next (msgs ++ batch.map (toolResultMessage env))
          (log ++ (batch.map (toolLogEntries env)).flatten) := by
  intro batch
  induction batch with
  | nil =>
    intro msgs log h
    simp [runBatch]
  | cons tc rest ih =>
    intro msgs log h
    have hname := (h tc (List.mem_cons_self tc rest)).1
    have hok := (h tc (List.mem_cons_self tc rest)).2
    have hrest := fun tc' ht' => h tc' (List.mem_cons_of_mem tc ht')
    cases hp : jsonParse tc.arguments with
    | error e => rw [hp] at hok; simp [Except.isOk, Except.toBool] at hok
    | ok a =>
      simp only [runBatch, hp, hname, Bool.false_eq_true, if_false]
      rw [ih _ _ hrest]
      simp only [List.map_cons, List.flatten_cons, toolResultMessage, toolLogEntries, hp]
      rw [List.append_assoc, List.append_assoc, List.singleton_append]

/-- Concrete instance of C7. -/
theorem tool_results_one_per_request_witness :
    runBatch "q" demoEnv [⟨"c1", "read_file", .wellFormed { path := some "README.md" }⟩] [] [] =
      .next ([] ++ [(⟨"c1", "read_file", .wellFormed { path := some "README.md" }⟩ : ToolCall)].map
          (toolResultMessage demoEnv))
        ([] ++ ([(⟨"c1", "read_file", .wellFormed { path := some "README.md" }⟩ : ToolCall)].map
          (toolLogEntries demoEnv)).flatten) :=
  tool_results_one_per_request "q" demoEnv
    [⟨"c1", "read_file", .wellFormed { path := some "README.md" }⟩] [] [] (by decide)

-- C8

/-- C8: a tool call whose raw argument payload is not valid JSON crashes
the whole session: `JSON.parse` sits outside the per-call try/catch, so the
run ends in an uncaught-exception outcome, no tool-result message is ever
appended, and the caller receives an error instead of an
`InvestigationResult`. -/
theorem malformed_arguments_crash_session :
    (runInvestigation "q" ⟨3, 1000⟩ demoEnv
        [⟨"", [⟨"call_1", "read_file", .malformed "not json"⟩]⟩] (fun _ => 0)).outcome
      = .crashed "Unexpected token in JSON: not json"
    ∧ ((runInvestigation "q" ⟨3, 1000⟩ demoEnv
        [⟨"", [⟨"call_1", "read_file", .malformed "not json"⟩]⟩] (fun _ => 0)).messages.filter
          (fun m => m.role == Role.tool)) = []
    ∧ (finalResult "q" (runInvestigation "q" ⟨3, 1000⟩ demoEnv
        [⟨"", [⟨"call_1", "read_file", .malformed "not json"⟩]⟩] (fun _ => 0)).outcome).isOk
      = false :=
  ⟨rfl, rfl, rfl⟩

-- C9

/-- C9 counterexample: a successful read_file (its tool-result carries the
file's content and the operational log records the read) followed by a
submit_report with an empty evidence list yields a final result whose
evidence is empty — no `EvidenceItem` was appended by the successful read,
contrary to the claimed ledger. -/
theorem evidence_ledger_counterexample :
    (runInvestigation "q" ⟨3, 1000⟩ demoEnv
        [⟨"", [⟨"c1", "read_file", .wellFormed { path := some "README.md" }⟩]⟩,
         ⟨"", [⟨"c2", "submit_report", .wellFormed { summary := "done", details := "dd" }⟩]⟩]
        (fun _ => 0)).outcome = .submitted ⟨"q", "done", "dd", []⟩
    ∧ (runInvestigation "q" ⟨3, 1000⟩ demoEnv
        [⟨"", [⟨"c1", "read_file", .wellFormed { path := some "README.md" }⟩]⟩,
         ⟨"", [⟨"c2", "submit_report", .wellFormed { summary := "done", details := "dd" }⟩]⟩]
        (fun _ => 0)).log = [("read_file", "README.md")]
    ∧ ((runInvestigation "q" ⟨3, 1000⟩ demoEnv
        [⟨"", [⟨"c1", "read_file", .wellFormed { path := some "README.md" }⟩]⟩,
         ⟨"", [⟨"c2", "submit_report", .wellFormed { summary := "done", details := "dd" }⟩]⟩]
        (fun _ => 0)).messages.filter (fun m => m.role == Role.tool))
      = [{ role := .tool, content := "hello pm", tool_call_id := some "c1", name := some "read_file" }] :=
  ⟨rfl, rfl, rfl⟩

/-- Batch processing reaches the same termination decision — including the
exact submitted report — regardless of the tool environment and of the
message history and log it started from. -/
theorem runBatch_kind_env_independent (objective : String) :
    ∀ (batch : List ToolCall) (env env' : EngineEnv) (m m' : List Message)
      (l l' : List (String × String)),
      batchKind (runBatch objective env batch m l) = batchKind (runBatch objective env' batch m' l') := by
  intro batch
  induction batch with
  | nil => intro env env' m m' l l'; rfl
  | cons tc rest ih =>
    intro env env' m m' l l'
    simp only [runBatch]
    cases hp : jsonParse tc.arguments with
    | error e => rfl
    | ok a =>
      cases hn : streq tc.name "submit_report" with
      | true => rfl
      | false =>
        simp only [hn, Bool.false_eq_true, if_false]
        exact ih env env' _ _ _ _

/-- The loop's outcome and turn count do not depend on the tool
environment or on the accumulated messages and log. -/
theorem runLoop_env_independent (objective : String) (cfg : InvestigationConfig)
    (script : List LLMResponse) (elapsed : Nat → Nat) (env env' : EngineEnv) :
    ∀ (fuel turns : Nat) (m m' : List Message) (l l' : List (String × String)),
      (runLoop objective cfg env script elapsed fuel turns m l).outcome
          = (runLoop objective cfg env' script elapsed fuel turns m' l').outcome
      ∧ (runLoop objective cfg env script elapsed fuel turns m l).turns
          = (runLoop objective cfg env' script elapsed fuel turns m' l').turns := by
  intro fuel
  induction fuel with
  | zero => intro turns m m' l l'; exact ⟨rfl, rfl⟩
  | succ n ih =>
    intro turns m m' l l'
    simp only [runLoop]
    by_cases ht : cfg.maxTimeMs < elapsed turns
    · rw [if_pos ht, if_pos ht]
      exact ⟨rfl, rfl⟩
    · rw [if_neg ht, if_neg ht]
      cases he : (script.getD turns ⟨"", []⟩).tool_calls.isEmpty with
      | true =>
        simp only [he, if_true, ite_true]
        exact ih (turns + 1) _ _ _ _
      | false =>
        simp only [he, Bool.false_eq_true, if_false]
        generalize m ++ [{ role := Role.assistant, content := (script.getD turns ⟨"", []⟩).content, tool_calls := (script.getD turns ⟨"", []⟩).tool_calls, tool_call_id := none, name := none }] = M
        generalize m' ++ [{ role := Role.assistant, content := (script.getD turns ⟨"", []⟩).content, tool_calls := (script.getD turns ⟨"", []⟩).tool_calls, tool_call_id := none, name := none }] = M'
        have hk := runBatch_kind_env_independent objective (script.getD turns ⟨"", []⟩).tool_calls env env' M M' l l'
        cases hb : runBatch objective env (script.getD turns ⟨"", []⟩).tool_calls M l with
        | next m2 l2 =>
          cases hb' : runBatch objective env' (script.getD turns ⟨"", []⟩).tool_calls M' l' with
          | next m2' l2' => exact ih (turns + 1) _ _ _ _
          | submitted r' m2' l2' => rw [hb, hb'] at hk; simp [batchKind] at hk
          | crashed e' m2' l2' => rw [hb, hb'] at hk; simp [batchKind] at hk
        | submitted r m2 l2 =>
          cases hb' : runBatch objective env' (script.getD turns ⟨"", []⟩).tool_calls M' l' with
          | next m2' l2' => rw [hb, hb'] at hk; simp [batchKind] at hk
          | submitted r' m2' l2' =>
            rw [hb, hb'] at hk
            simp only [batchKind, Except.ok.injEq, Option.some.injEq] at hk
            rw [hk]
            exact ⟨rfl, rfl⟩
          | crashed e' m2' l2' => rw [hb, hb'] at hk; simp [batchKind] at hk
        | crashed e m2 l2 =>
          cases hb' : runBatch objective env' (script.getD turns ⟨"", []⟩).tool_calls M' l' with
          | next m2' l2' => rw [hb, hb'] at hk; simp [batchKind] at hk
          | submitted r' m2' l2' => rw [hb, hb'] at hk; simp [batchKind] at hk
          | crashed e' m2' l2' =>
            rw [hb, hb'] at hk
            simp only [batchKind, Except.error.injEq] at hk
            rw [hk]
            exact ⟨rfl, rfl⟩

/-- C9 (amended): the orchestrator maintains no evidence ledger.  How a
session ends — including the exact evidence list of a submitted result —
is fully determined by the reasoning service's responses: replacing the
entire file system, directory tree and grep output changes neither the
outcome (with its report and evidence) nor the turn count.  Successful
reads and searches contribute only tool-result messages and log entries,
never evidence items; the fallback result's evidence is empty. -/
theorem outcome_independent_of_environment (objective : String) (cfg : InvestigationConfig)
    (script : List LLMResponse) (elapsed : Nat → Nat) (env env' : EngineEnv) :
    (runInvestigation objective cfg env script elapsed).outcome
        = (runInvestigation objective cfg env' script elapsed).outcome
    ∧ (runInvestigation objective cfg env script elapsed).turns
        = (runInvestigation objective cfg env' script elapsed).turns
    ∧ (fallbackResult objective).evidence = [] := by
  refine ⟨?_, ?_, rfl⟩
  · exact (runLoop_env_independent objective cfg script elapsed env env' cfg.maxTurns 0 _ _ _ _).1
  · exact (runLoop_env_independent objective cfg script elapsed env env' cfg.maxTurns 0 _ _ _ _).2

-- C10

/-- Boolean string equality agrees with propositional equality. -/
theorem streq_iff (a b : String) : streq a b = true ↔ a = b := by
  cases a with
  | mk da =>
    cases b with
    | mk db =>
      simp only [streq, beq_iff_eq]
      constructor
      · intro h
        rw [h]
      · intro h
        injection h

/-- The child loop never grows the entry list beyond the 200 cap, given
that the subdirectory walk it delegates to preserves that bound. -/
theorem walkChildrenF_len (recursive : Bool)
    (walkSub : String → List FsEntry → List String × List String → List String × List String)
    (relPre : String)
    (hsub : ∀ rp ch a, a.1.length ≤ maxEntries → ((walkSub rp ch a).1).length ≤ maxEntries) :
    ∀ (children : List FsEntry) (acc : List String × List String),
      acc.1.length ≤ maxEntries →
      ((walkChildrenF recursive walkSub relPre children acc).1).length ≤ maxEntries := by
  intro children
  induction children with
  | nil => intro acc h; exact h
  | cons f rest ih =>
    intro acc h
    simp only [walkChildrenF]
    by_cases h1 : acc.1.length ≥ maxEntries
    · rw [if_pos h1]
      exact h
    · rw [if_neg h1]
      have hlt : acc.1.length < maxEntries := Nat.lt_of_not_le h1
      by_cases h2 : readBlocked (relJoin relPre f.name) = true
      · rw [if_pos h2]
        exact ih acc h
      · rw [if_neg h2]
        cases f with
        | file n =>
          dsimp only
          apply ih
          show (acc.1 ++ [relJoin relPre (FsEntry.file n).name]).length ≤ maxEntries
          rw [List.length_append]
          simp only [List.length_singleton]
          omega
        | dir n ch =>
          dsimp only
          by_cases h3 : recursive = true
          · rw [if_pos h3]
            exact ih _ (hsub _ _ _ h)
          · rw [if_neg h3]
            apply ih
            show (acc.1 ++ [relJoin relPre (FsEntry.dir n ch).name ++ "/"]).length ≤ maxEntries
            rw [List.length_append]
            simp only [List.length_singleton]
            omega

/-- The whole walk never exceeds the 200-entry cap. -/
theorem walkDir_len (recursive : Bool) :
    ∀ (fuel : Nat) (relPre : String) (children : List FsEntry) (acc : List String × List String),
      acc.1.length ≤ maxEntries →
      ((walkDir recursive fuel relPre children acc).1).length ≤ maxEntries := by
  intro fuel
  induction fuel with
  | zero => intro relPre children acc h; exact h
  | succ n ih =>
    intro relPre children acc h
    simp only [walkDir]
    by_cases h1 : acc.1.length ≥ maxEntries
    · rw [if_pos h1]
      exact h
    · rw [if_neg h1]
      exact walkChildrenF_len recursive _ relPre (fun rp ch a ha => ih rp ch a ha) children _ h

/-- A recursive scan of a target that cleans to the project root with depth
above one fails with the safety error, for every tree. -/
theorem listDocFiles_root_scan_error (tree : List FsEntry) (p : String) (depth : Nat)
    (hdot : cleanPath p = ".") (hdepth : 1 < depth) :
    listDocFiles tree p true depth = .error "Safety: Recursive scan of root directory is not allowed. Please scan specific folders (e.g. 'app', 'src') or use non-recursive mode." := by
  simp only [listDocFiles, normalizePath, hdot]
  rw [show readBlocked "." = false from by decide]
  simp only [Bool.false_eq_true, if_false]
  rw [if_pos]
  rw [show streq "." "." = true from by decide, decide_eq_true hdepth]
  rfl

/-- A successful `listDocFiles` call returns the capped walk output with
the truncation marker appended exactly when the 200-entry cap was hit. -/
theorem listDocFiles_cap (tree : List FsEntry) (p : String) (recursive : Bool) (depth : Nat)
    (entries visited : List String)
    (hok : listDocFiles tree p recursive depth = .ok (entries, visited)) :
    (walkEntriesOf tree p recursive depth).length ≤ maxEntries
    ∧ entries = (if (walkEntriesOf tree p recursive depth).length ≥ maxEntries
        then walkEntriesOf tree p recursive depth ++ [truncMarker]
        else walkEntriesOf tree p recursive depth) := by
  simp only [listDocFiles, normalizePath] at hok
  by_cases hb : readBlocked (cleanPath p) = true
  · rw [if_pos hb] at hok
    simp at hok
  · rw [if_neg hb] at hok
    dsimp only at hok
    by_cases hsafe : (recursive && streq (cleanPath p) "." && decide (depth > 1)) = true
    · rw [if_pos hsafe] at hok
      simp at hok
    · rw [if_neg hsafe] at hok
      unfold walkEntriesOf
      cases hfd : findDir tree (targetSegs (cleanPath p)) with
      | none =>
        rw [hfd] at hok
        simp only [Except.ok.injEq, Prod.mk.injEq] at hok
        obtain ⟨h1, h2⟩ := hok
        refine ⟨by simp [maxEntries], ?_⟩
        rw [← h1]
        simp [maxEntries]
      | some children =>
        rw [hfd] at hok
        dsimp only at hok
        simp only [Except.ok.injEq, Prod.mk.injEq] at hok
        obtain ⟨h1, h2⟩ := hok
        have hlen := walkDir_len recursive depth (cleanPath p) children ([], []) (by simp [maxEntries])
        exact ⟨hlen, h1.symm⟩

/-- C10: a recursive `listDocFiles` call on a target that normalizes to
`.` with depth above one fails with the safety error before any directory
is read (the outcome does not depend on the tree at all), and every
successful call returns at most 200 walked entries, with the single
truncation marker line appended exactly when the 200-entry cap was
reached. -/
theorem listDocFiles_safety_and_cap :
    (∀ (p : String) (depth : Nat) (tree tree' : List FsEntry),
        cleanPath p = "." → 1 < depth →
        listDocFiles tree p true depth = .error "Safety: Recursive scan of root directory is not allowed. Please scan specific folders (e.g. 'app', 'src') or use non-recursive mode."
        ∧ listDocFiles tree p true depth = listDocFiles tree' p true depth)
    ∧ (∀ (tree : List FsEntry) (p : String) (recursive : Bool) (depth : Nat)
        (entries visited : List String),
        listDocFiles tree p recursive depth = .ok (entries, visited) →
        (walkEntriesOf tree p recursive depth).length ≤ maxEntries
        ∧ entries = (if (walkEntriesOf tree p recursive depth).length ≥ maxEntries
            then walkEntriesOf tree p recursive depth ++ [truncMarker]
            else walkEntriesOf tree p recursive depth)) := by
  constructor
  · intro p depth tree tree' hdot hdepth
    have h1 := listDocFiles_root_scan_error tree p depth hdot hdepth
    have h2 := listDocFiles_root_scan_error tree' p depth hdot hdepth
    exact ⟨h1, h1.trans h2.symm⟩
  · intro tree p recursive depth entries visited hok
    exact listDocFiles_cap tree p recursive depth entries visited hok

/-- Concrete instance of C10. -/
theorem listDocFiles_safety_and_cap_witness :
    listDocFiles [FsEntry.file "a.md"] "." true 2 = .error "Safety: Recursive scan of root directory is not allowed. Please scan specific folders (e.g. 'app', 'src') or use non-recursive mode."
    ∧ (walkEntriesOf [FsEntry.dir "docs" [FsEntry.file "a.md"]] "docs" true 2).length ≤ maxEntries
    ∧ ["docs/a.md"] = (if (walkEntriesOf [FsEntry.dir "docs" [FsEntry.file "a.md"]] "docs" true 2).length ≥ maxEntries
        then walkEntriesOf [FsEntry.dir "docs" [FsEntry.file "a.md"]] "docs" true 2 ++ [truncMarker]
        else walkEntriesOf [FsEntry.dir "docs" [FsEntry.file "a.md"]] "docs" true 2) :=
  ⟨(listDocFiles_safety_and_cap.1 "." 2 [FsEntry.file "a.md"] [] (by decide) (by decide)).1,
   (listDocFiles_safety_and_cap.2 [FsEntry.dir "docs" [FsEntry.file "a.md"]] "docs" true 2
     ["docs/a.md"] ["docs"] rfl).1,
   (listDocFiles_safety_and_cap.2 [FsEntry.dir "docs" [FsEntry.file "a.md"]] "docs" true 2
     ["docs/a.md"] ["docs"] rfl).2⟩
